import Mathlib

/-!
Verification of the AppFlowy database view engine
(`frontend/rust-lib/flowy-database2/src/services/database/database_editor.rs`).

The Rust code is shallowly embedded: the `DatabaseEditor` struct becomes an
explicit state record, async methods become pure state-passing functions
returning `Except FlowyError _`, and the external collaborators (the
collab-database `Database` document, the moka cache, tokio timers/channels)
are modelled by their documented semantics.  Notification fan-out
(`did_update_row`, `notify_did_update_database`, debounced senders) carries
no model state and is elided; a comment marks each elision point.
-/

namespace Flowy

/-- Row identifier (`RowId` wraps a `String` in collab-database). -/
abbrev RowId := String

/-- Opaque cell payload.  The type-specific encoding of cell data is out of
scope; only presence/absence and identity of cells matter to the claims. -/
structure Cell where
  data : String
deriving DecidableEq, Repr

/-- Ordered mapping field-id to cell, as stored on a row. -/
abbrev Cells := List (String × Cell)

/-- Overwrite-or-append insertion into the cell map
(`cell_update.insert(field_id, new_cell)`). -/
def cells_insert (cells : Cells) (field_id : String) (c : Cell) : Cells :=
  if cells.any (fun e => e.1 = field_id) then
    cells.map (fun e => if e.1 = field_id then (field_id, c) else e)
  else
    cells ++ [(field_id, c)]

/-- Remove a field's cell from the cell map (`cell_update.clear(field_id)`). -/
def cells_clear (cells : Cells) (field_id : String) : Cells :=
  cells.filter (fun e => ¬ e.1 = field_id)

/-- Lookup in the cell map. -/
def cells_get : Cells → String → Option Cell
  | [], _ => none
  | e :: rest, field_id => if e.1 = field_id then some e.2 else cells_get rest field_id

/-- A storage row: identity, cells, timestamps
(`collab_database::rows::Row`, external collaborator). -/
structure Row where
  id : RowId
  cells : Cells
  created_at : Int
  modified_at : Int
deriving DecidableEq, Repr

/-- Row metadata (icon, cover, document-emptiness flag, attachment count). -/
structure RowMeta where
  icon_url : Option String
  is_document_empty : Bool
  attachment_count : Int
  cover : Option String
deriving DecidableEq, Repr

/-- An entry of a view's row-order list (`collab_database::views::RowOrder`). -/
structure RowOrder where
  id : RowId
deriving DecidableEq, Repr

/-- Field type tags used by `database_editor.rs` (subset of the `FieldType`
enum of `flowy-database2::entities`; `FieldType::default()` is `RichText`). -/
inductive FieldType
  | RichText
  | Number
  | DateTime
  | SingleSelect
  | MultiSelect
  | Checkbox
  | URL
  | Checklist
  | LastEditedTime
  | CreatedTime
  | Relation
  | Media
deriving DecidableEq, Repr

/-- Opaque type-specific field configuration payload (`TypeOptionData`). -/
abbrev TypeOptionData := List (String × String)

/-- A database field (`collab_database::fields::Field`): identity, name,
type tag, primary flag, and per-type configuration payloads. -/
structure Field where
  id : String
  name : String
  field_type : FieldType
  is_primary : Bool
  type_options : List (FieldType × TypeOptionData)
deriving DecidableEq, Repr

/-- `field.get_any_type_option(ty)`: the stored payload for a type tag. -/
def Field.get_any_type_option : List (FieldType × TypeOptionData) → FieldType → Option TypeOptionData
  | [], _ => none
  | e :: rest, ty => if e.1 = ty then some e.2 else Field.get_any_type_option rest ty

/-- `update.set_field_type(ty)` on a field. -/
def Field.set_field_type (f : Field) (ty : FieldType) : Field :=
  { f with field_type := ty }

/-- `update.set_name_if_not_none(name)` on a field. -/
def Field.set_name_if_not_none (f : Field) (name : Option String) : Field :=
  match name with
  | some n => { f with name := n }
  | none => f

/-- `update.set_type_option(ty, data)` on a field: overwrite-or-append the
payload stored for the type tag. -/
def Field.set_type_option (f : Field) (ty : FieldType) (data : Option TypeOptionData) : Field :=
  match data with
  | none => f
  | some d =>
    if f.type_options.any (fun e => e.1 = ty) then
      { f with type_options := f.type_options.map (fun e => if e.1 = ty then (ty, d) else e) }
    else
      { f with type_options := f.type_options ++ [(ty, d)] }

/-- View layout kinds (`DatabaseLayout`). -/
inductive DatabaseLayout
  | Grid
  | Board
  | Calendar
deriving DecidableEq, Repr

/-- A database view: identity, layout, independent row order
(`collab_database::entity::DatabaseView`; filters/sorts/groups live in the
per-view editor configuration, modelled separately). -/
structure DatabaseView where
  id : String
  layout : DatabaseLayout
  row_orders : List RowOrder
deriving DecidableEq, Repr

/-- Modelled from the spec: the SharedDocument (collab-database `Database`)
is an external collaborator consumed, not reimplemented — "holds fields,
rows, views ... as durable state; supports read and exclusive-write access,
and row/field/view mutation primitives".  Rows live in storage order. -/
structure Database where
  database_id : String
  fields : List Field
  rows : List Row
  metas : List (RowId × RowMeta)
  document_ids : List (RowId × String)
  views : List DatabaseView
deriving DecidableEq, Repr

/-- `database.get_field(field_id)`: lookup a field by id. -/
def Database.get_field (db : Database) (field_id : String) : Option Field :=
  db.fields.find? (fun f => f.id == field_id)

/-- `database.delete_field(field_id)`: remove a field by id. -/
def Database.delete_field (db : Database) (field_id : String) : Database :=
  { db with fields := db.fields.filter (fun f => ¬ f.id = field_id) }

/-- `database.update_field(field_id, modify)`: apply an update closure to the
field with the given id. -/
def Database.update_field (db : Database) (field_id : String) (modify : Field → Field) : Database :=
  { db with fields := db.fields.map (fun f => if f.id = field_id then modify f else f) }

/-- `database.get_view(view_id)`. -/
def Database.get_view (db : Database) (view_id : String) : Option DatabaseView :=
  db.views.find? (fun v => v.id == view_id)

/-- `database.contains_row(view_id, row_id)`: whether the view's row-order
list contains the row. -/
def Database.contains_row (db : Database) (view_id : String) (row_id : RowId) : Bool :=
  match db.get_view view_id with
  | some v => v.row_orders.any (fun ro => ro.id = row_id)
  | none => false

/-- `database.get_row(row_id)`: total in collab-database — returns an empty
default row when the id is unknown. -/
def Database.get_row (db : Database) (row_id : RowId) : Row :=
  (db.rows.find? (fun r => r.id == row_id)).getD
    { id := row_id, cells := [], created_at := 0, modified_at := 0 }

/-- `database.get_row_meta(row_id)`. -/
def Database.get_row_meta (db : Database) (row_id : RowId) : Option RowMeta :=
  (db.metas.find? (fun e => e.1 == row_id)).map (fun e => e.2)

/-- `database.get_row_document_id(row_id)`. -/
def Database.get_row_document_id (db : Database) (row_id : RowId) : Option String :=
  (db.document_ids.find? (fun e => e.1 == row_id)).map (fun e => e.2)

/-- `database.update_row(row_id, modify)`: apply a row-update closure to the
row with the given id; no-op when the row is absent from storage. -/
def Database.update_row (db : Database) (row_id : RowId) (modify : Row → Row) : Database :=
  { db with rows := db.rows.map (fun r => if r.id = row_id then modify r else r) }

/-- `database.get_cell(field_id, row_id).cell`. -/
def Database.get_cell (db : Database) (field_id : String) (row_id : RowId) : Option Cell :=
  cells_get (db.get_row row_id).cells field_id

/-- `database.get_cells_for_field(view_id, field_id)`: one `RowCell` per row
of the view, pairing the row id with that row's (possibly absent) cell. -/
def Database.get_cells_for_field (db : Database) (view_id : String) (field_id : String) :
    List (RowId × Option Cell) :=
  match db.get_view view_id with
  | some v => v.row_orders.map (fun ro => (ro.id, db.get_cell field_id ro.id))
  | none => []

/-- Whether a row with this id exists in storage. -/
def Database.has_row (db : Database) (row_id : RowId) : Bool :=
  db.rows.any (fun r => r.id = row_id)

/-- Collab plugin types relevant here (`CollabPluginType::CloudStorage` is
the per-row cloud-sync capability attached by `collab_builder.finalize`). -/
inductive CollabPluginType
  | CloudStorage
  | Other
deriving DecidableEq, Repr

/-- A live `DatabaseRow` collab object is modelled by its plugin list; a
weak handle (`Weak<RwLock<DatabaseRow>>`) upgrades to `none` once the row
object has been deallocated. -/
abbrev WeakDatabaseRow := Option (List CollabPluginType)

/-- `row.has_cloud_plugin()`. -/
def has_cloud_plugin (plugins : List CollabPluginType) : Bool :=
  plugins.any (fun p => p = CollabPluginType.CloudStorage)

/-- `row.remove_plugins_for_types(types)`. -/
def remove_plugins_for_types (plugins : List CollabPluginType)
    (types : List CollabPluginType) : List CollabPluginType :=
  plugins.filter (fun p => ¬ types.contains p)

/-- A tokio `CancellationToken`, reduced to its observable cancelled flag. -/
structure Token where
  cancelled : Bool
deriving DecidableEq, Repr

/-- Error kinds.  Modelled from the spec (the `flowy_error` crate is not
part of the sources here): §7 lists `RecordNotFound`, the `Internal` policy
error, `Timeout`, and pass-through kinds; `InvalidParams` stands for the
parameter-conversion failures (`Uuid::from_str` etc.). -/
inductive ErrorCode
  | Internal
  | RecordNotFound
  | Timeout
  | InvalidParams
deriving DecidableEq, Repr

/-- A typed error (`FlowyError`): kind plus context message. -/
structure FlowyError where
  code : ErrorCode
  msg : String
deriving DecidableEq, Repr

/-- Modelled from the spec: `FlowyError::new(code, msg)`. -/
def FlowyError.new (code : ErrorCode) (msg : String) : FlowyError :=
  { code := code, msg := msg }

/-- Modelled from the spec: `FlowyError::internal()` constructs its namesake
`Internal` code — the same kind the file builds explicitly as
`FlowyError::new(ErrorCode::Internal, _)` for policy violations (§7:
"a primary-field violation returns an `Internal` policy error"). -/
def FlowyError.internal : FlowyError :=
  { code := ErrorCode.Internal, msg := "" }

/-- Modelled from the spec: `FlowyError::record_not_found()` constructs the
`RecordNotFound` kind (§7: "missing field/row/view return RecordNotFound"). -/
def FlowyError.record_not_found : FlowyError :=
  { code := ErrorCode.RecordNotFound, msg := "" }

/-- `err.with_context(msg)`. -/
def FlowyError.with_context (e : FlowyError) (ctx : String) : FlowyError :=
  { e with msg := ctx }

/-- The mutable state of `DatabaseEditor`: the shared document, the heap of
live `DatabaseRow` collab objects with their plugins (weak handles resolve
against it), the `finalized_rows` moka cache keys, the single-flight fields
(`is_loading_rows`, `opening_ret_txs`), both cancellation-token slots, and
two ghost observers: the count of row-loading pipelines ever started and
whether a close-grace sleep is pending. -/
structure DatabaseEditor where
  database : Database
  handles : List (RowId × List CollabPluginType)
  finalized_rows : List RowId
  is_loading_rows : Bool
  opening_ret_txs : List Nat
  database_cancellation : Option Token
  un_finalized_rows_cancellation : Option Token
  pipelines_started : Nat
  timer_pending : Bool
deriving DecidableEq, Repr

/-- Resolve a weak row handle against the heap of live row objects. -/
def lookup_handle : List (RowId × List CollabPluginType) → RowId → WeakDatabaseRow
  | [], _ => none
  | e :: rest, rid => if e.1 = rid then some e.2 else lookup_handle rest rid

/-- Replace the plugin list of every live handle with the given id. -/
def set_handle (handles : List (RowId × List CollabPluginType)) (rid : RowId)
    (ps : List CollabPluginType) : List (RowId × List CollabPluginType) :=
  handles.map (fun e => if e.1 = rid then (rid, ps) else e)

/-- Environment of external effects consumed by the editor: the wall clock
(`timestamp()`), fallibility of `Uuid::from_str`, of
`collab_builder.collab_object`, and of `collab_builder.finalize`, the
field-type changeset transformation (`apply_cell_changeset`), and the
type-option transforms — all repo code outside `database_editor.rs`,
modelled from the spec as opaque capabilities. -/
structure Env where
  now : Int
  uuidOk : String → Bool
  collabObjOk : String → Bool
  finalizeOk : String → Bool
  apply_cell_changeset : String → Option Cell → Field → Except FlowyError Cell
  transform_type_option :
    String → String → FieldType → FieldType → Option TypeOptionData → TypeOptionData → TypeOptionData
  default_type_option_data_from_type : FieldType → TypeOptionData

/-- `DatabaseEditor::delete_field` (database_editor.rs:404-434): refuse to
delete a primary field with an `Internal` policy error, otherwise remove the
field.  Notification fan-out and `v_did_delete_field` are elided. -/
def DatabaseEditor.delete_field (s : DatabaseEditor) (field_id : String) :
    Except FlowyError DatabaseEditor :=
  let is_primary := ((s.database.get_field field_id).map Field.is_primary).getD false
  if is_primary then
    .error (FlowyError.new ErrorCode.Internal "Can not delete primary field")
  else
    .ok { s with database := s.database.delete_field field_id }

/-- `DatabaseEditor::switch_to_field_type` (database_editor.rs:484-536):
refuse to retype a primary field with an `Internal` policy error; otherwise
transform the type option and update the field's type, name and payload.
`v_did_update_field_type` and notification fan-out are elided. -/
def DatabaseEditor.switch_to_field_type (env : Env) (s : DatabaseEditor) (view_id : String)
    (field_id : String) (new_field_type : FieldType) (field_name : Option String) :
    Except FlowyError DatabaseEditor :=
  match s.database.get_field field_id with
  | some field =>
    if field.is_primary then
      .error (FlowyError.new ErrorCode.Internal "Can not update primary field's field type")
    else
      let old_field_type := field.field_type
      let old_type_option := Field.get_any_type_option field.type_options old_field_type
      let new_type_option := (Field.get_any_type_option field.type_options new_field_type).getD
        (env.default_type_option_data_from_type new_field_type)
      let transformed := env.transform_type_option view_id field_id old_field_type new_field_type
        old_type_option new_type_option
      .ok { s with database := s.database.update_field field_id (fun f =>
              ((f.set_field_type new_field_type).set_name_if_not_none field_name).set_type_option
                new_field_type (some transformed)) }
  | none => .ok s

/-- `get_or_init_database_row` of collab-database: returns the live
`DatabaseRow` collab object for a stored row, constructing it (with an empty
plugin list) when no live object exists; `none` when the row is not in
storage.  The state records the possibly-extended heap of live objects. -/
def DatabaseEditor.get_or_init_database_row (s : DatabaseEditor) (row_id : RowId) :
    Option DatabaseEditor :=
  if s.database.has_row row_id then
    match lookup_handle s.handles row_id with
    | some _ => some s
    | none => some { s with handles := (row_id, []) :: s.handles }
  else
    none

/-- `DatabaseEditor::init_database_row` (database_editor.rs:790-834), the
sole finalization entry point.  The bounded wait on `is_loading_rows`
carries no state and is elided.  The row object is fetched or constructed;
unless the row is already in the `finalized_rows` cache, a sync-capable
collab handle is finalized for it (a `finalize` failure is only logged: the
cache insertion still happens) and the cache entry is inserted.  Capacity
eviction of the moka cache is modelled separately by the eviction
listener. -/
def DatabaseEditor.init_database_row (env : Env) (s : DatabaseEditor) (row_id : RowId) :
    Except FlowyError DatabaseEditor :=
  match s.get_or_init_database_row row_id with
  | none =>
    .error (FlowyError.record_not_found.with_context
      ("The row:" ++ row_id ++ " in database not found"))
  | some s1 =>
    let is_finalized := row_id ∈ s1.finalized_rows
    if is_finalized then
      .ok s1
    else if ¬ env.uuidOk row_id then
      .error (FlowyError.new ErrorCode.InvalidParams "invalid row id")
    else if ¬ env.collabObjOk row_id then
      .error (FlowyError.new ErrorCode.Internal "failed to create collab object")
    else
      let attached := (lookup_handle s1.handles row_id).getD [] ++ [CollabPluginType.CloudStorage]
      let s2 :=
        if env.finalizeOk row_id then
          { s1 with handles := set_handle s1.handles row_id attached }
        else
          s1
      .ok { s2 with finalized_rows := row_id :: s2.finalized_rows }

/-- The finalize-before-write guard inlined at the top of
`DatabaseEditor::update_row` (database_editor.rs:1022-1028): when the row is
not in the `finalized_rows` cache, finalize it first. -/
def DatabaseEditor.finalize_row_if_needed (env : Env) (s : DatabaseEditor) (row_id : RowId) :
    Except FlowyError DatabaseEditor :=
  if row_id ∈ s.finalized_rows then .ok s else s.init_database_row env row_id

/-- The forwarding of a row write to the shared document
(`self.database.write().await.update_row(row_id, modify)`). -/
def DatabaseEditor.forward_row_write (s : DatabaseEditor) (row_id : RowId) (modify : Row → Row) :
    DatabaseEditor :=
  { s with database := s.database.update_row row_id modify }

/-- `DatabaseEditor::update_row` (database_editor.rs:1018-1031). -/
def DatabaseEditor.update_row (env : Env) (s : DatabaseEditor) (row_id : RowId)
    (modify : Row → Row) : Except FlowyError DatabaseEditor := do
  let s1 ← s.finalize_row_if_needed env row_id
  .ok (s1.forward_row_write row_id modify)

/-- The row-update closure of `DatabaseEditor::update_cell`:
`set_last_modified(timestamp())` plus cell insertion. -/
def update_cell_modify (now : Int) (field_id : String) (new_cell : Cell) (r : Row) : Row :=
  { r with modified_at := now, cells := cells_insert r.cells field_id new_cell }

/-- `DatabaseEditor::update_cell` (database_editor.rs:991-1016).  The
read-only `get_row` snapshot and the `did_update_row` notification hook
(view fan-out, calculations, media attachment-count recompute) are elided. -/
def DatabaseEditor.update_cell (env : Env) (s : DatabaseEditor) (_view_id : String)
    (row_id : RowId) (field_id : String) (new_cell : Cell) : Except FlowyError DatabaseEditor :=
  s.update_row env row_id (update_cell_modify env.now field_id new_cell)

/-- The row-update closure of `DatabaseEditor::clear_cell`. -/
def clear_cell_modify (field_id : String) (r : Row) : Row :=
  { r with cells := cells_clear r.cells field_id }

/-- `DatabaseEditor::clear_cell` (database_editor.rs:1033-1049).  The
read-only snapshot and `did_update_row` hook are elided as above. -/
def DatabaseEditor.clear_cell (env : Env) (s : DatabaseEditor) (_view_id : String)
    (row_id : RowId) (field_id : String) : Except FlowyError DatabaseEditor :=
  s.update_row env row_id (clear_cell_modify field_id)

/-- `DatabaseEditor::update_cell_with_changeset` (database_editor.rs:963-986):
read the prior cell, apply the field-type-specific changeset transformation,
then write through `update_cell`. -/
def DatabaseEditor.update_cell_with_changeset (env : Env) (s : DatabaseEditor) (view_id : String)
    (row_id : RowId) (field_id : String) (cell_changeset : String) :
    Except FlowyError DatabaseEditor := do
  let field ←
    match s.database.get_field field_id with
    | some f => Except.ok f
    | none =>
      Except.error (FlowyError.internal.with_context
        ("Field with id:" ++ field_id ++ " not found"))
  let cell := s.database.get_cell field_id row_id
  let new_cell ← env.apply_cell_changeset cell_changeset cell field
  s.update_cell env view_id row_id field_id new_cell

/-- `DatabaseEditor::get_cells_for_field` (database_editor.rs:928-961): for
timestamp field types the cells are synthesized from the rows' timestamps,
otherwise they are read from storage. -/
def DatabaseEditor.get_cells_for_field (s : DatabaseEditor) (view_id : String)
    (field_id : String) : List (RowId × Option Cell) :=
  match s.database.get_field field_id with
  | some field =>
    match field.field_type with
    | FieldType.LastEditedTime =>
      (s.database.get_view view_id).elim []
        (fun v => v.row_orders.map (fun ro =>
          (ro.id, some { data := toString (s.database.get_row ro.id).modified_at })))
    | FieldType.CreatedTime =>
      (s.database.get_view view_id).elim []
        (fun v => v.row_orders.map (fun ro =>
          (ro.id, some { data := toString (s.database.get_row ro.id).created_at })))
    | _ => s.database.get_cells_for_field view_id field_id
  | none => []

/-- The `for row_cell in cells` loop of `DatabaseEditor::clear_field`: clear
each collected cell in turn, stopping at the first error. -/
def DatabaseEditor.clear_cells_loop (env : Env) (s : DatabaseEditor) (view_id : String)
    (field_id : String) : List (RowId × Option Cell) → Except FlowyError DatabaseEditor
  | [] => .ok s
  | (row_id, _) :: rest => do
    let s1 ← s.clear_cell env view_id row_id field_id
    DatabaseEditor.clear_cells_loop env s1 view_id field_id rest

/-- `DatabaseEditor::clear_field` (database_editor.rs:436-459): refuse to
clear the `LastEditedTime`/`CreatedTime` field types (with an `Internal`
error), otherwise clear every cell of the field in the view.  There is no
primary-field check on this path. -/
def DatabaseEditor.clear_field (env : Env) (s : DatabaseEditor) (view_id : String)
    (field_id : String) : Except FlowyError DatabaseEditor :=
  let field_type := ((s.database.get_field field_id).map Field.field_type).getD FieldType.RichText
  if field_type = FieldType.LastEditedTime ∨ field_type = FieldType.CreatedTime then
    .error (FlowyError.new ErrorCode.Internal
      "Can not clear the field type of Last Edited Time or Created Time.")
  else
    s.clear_cells_loop env view_id field_id (s.get_cells_for_field view_id field_id)

/-- `remove_row_sync_plugin` (database_editor.rs:2316-2327): upgrade the
weak handle; if the row is live and carries the cloud plugin, remove the
`CloudStorage` plugins; otherwise do nothing.  The function returns the
resulting row object state (`none` when the row was already deallocated). -/
def remove_row_sync_plugin (_row_id : String) (row : WeakDatabaseRow) : WeakDatabaseRow :=
  match row with
  | none => none
  | some plugins =>
    if has_cloud_plugin plugins then
      some (remove_plugins_for_types plugins [CollabPluginType.CloudStorage])
    else
      some plugins

/-- `database_row_evict_listener` (database_editor.rs:2312-2314), the moka
eviction callback registered in `DatabaseEditor::new` (lines 84-92): it
delegates to `remove_row_sync_plugin`. -/
def database_row_evict_listener (key : String) (row : WeakDatabaseRow) : WeakDatabaseRow :=
  remove_row_sync_plugin key row

/-- Apply `remove_row_sync_plugin` to the heap entry a cache key's weak
handle resolves to. -/
def update_handle (handles : List (RowId × List CollabPluginType)) (rid : RowId) :
    List (RowId × List CollabPluginType) :=
  match remove_row_sync_plugin rid (lookup_handle handles rid) with
  | none => handles
  | some ps => set_handle handles rid ps

/-- The expiry branch of the close-grace timer (database_editor.rs:1452-1456):
`remove_row_sync_plugin` for every cache entry, then `invalidate_all` — whose
eviction listener runs `remove_row_sync_plugin` once more per entry. -/
def DatabaseEditor.un_finalize_sweep (s : DatabaseEditor) : DatabaseEditor :=
  let handles1 := s.finalized_rows.foldl update_handle s.handles
  let handles2 := s.finalized_rows.foldl update_handle handles1
  { s with handles := handles2, finalized_rows := [] }

/-- Grace period of `close_database` before un-finalizing rows. -/
def CLOSE_GRACE_SECS : Nat := 30

/-- `DatabaseEditor::close_database` (database_editor.rs:1439-1469): store a
fresh cancellation token, arm the 30-second grace timer, and cancel the
in-flight document cancellation token if one is present. -/
def DatabaseEditor.close_database (s : DatabaseEditor) : DatabaseEditor :=
  { s with
    un_finalized_rows_cancellation := some { cancelled := false },
    timer_pending := true,
    database_cancellation := s.database_cancellation.map (fun _ => { cancelled := true }) }

/-- The prologue of `DatabaseEditor::open_database_view`
(database_editor.rs:1481-1483): cancel the pending un-finalize token. -/
def DatabaseEditor.cancel_un_finalized_token (s : DatabaseEditor) : DatabaseEditor :=
  { s with un_finalized_rows_cancellation :=
      s.un_finalized_rows_cancellation.map (fun _ => { cancelled := true }) }

/-- The grace timer firing 30 seconds after `close_database`: if the stored
token was cancelled in the meantime the invalidation is skipped, otherwise
the un-finalize sweep runs. -/
def DatabaseEditor.grace_timer_fire (s : DatabaseEditor) : DatabaseEditor :=
  if s.timer_pending then
    match s.un_finalized_rows_cancellation with
    | some t =>
      if t.cancelled then
        { s with timer_pending := false }
      else
        { s.un_finalize_sweep with timer_pending := false }
    | none => { s with timer_pending := false }
  else
    s

/-- `RowMetaPB`, the transport row descriptor. -/
structure RowMetaPB where
  id : String
  document_id : Option String
  icon : Option String
  is_document_empty : Option Bool
  attachment_count : Option Int
  cover : Option String
deriving DecidableEq, Repr

/-- `RowMetaPB::from(row_order)`: only the id is carried. -/
def RowMetaPB.fromRowOrder (ro : RowOrder) : RowMetaPB :=
  { id := ro.id, document_id := none, icon := none, is_document_empty := none,
    attachment_count := none, cover := none }

/-- `RowMetaPB::from(row)`: only the id is carried. -/
def RowMetaPB.fromRow (r : Row) : RowMetaPB :=
  { id := r.id, document_id := none, icon := none, is_document_empty := none,
    attachment_count := none, cover := none }

/-- `DatabasePB`, the payload returned by `open_database_view`. -/
structure DatabasePB where
  id : String
  fields : List String
  rows : List RowMetaPB
  layout_type : DatabaseLayout
deriving DecidableEq, Repr

/-- Single-flight entry of `open_database_view`
(database_editor.rs:1485-1491): the caller's one-shot sender is queued
first; only when no load is in flight does the caller become the leader,
mark `is_loading_rows`, and start a pipeline (counted by the ghost
`pipelines_started`). -/
def DatabaseEditor.open_enter (s : DatabaseEditor) (caller : Nat) : DatabaseEditor :=
  let s1 := { s with opening_ret_txs := s.opening_ret_txs ++ [caller] }
  if s1.is_loading_rows then
    s1
  else
    { s1 with is_loading_rows := true, pipelines_started := s1.pipelines_started + 1 }

/-- Completion of the in-flight open (database_editor.rs:1560-1569): the
loading mark is dropped, the queue is drained, and every queued sender
receives a clone of the same result. -/
def DatabaseEditor.open_complete (s : DatabaseEditor) (result : Except FlowyError DatabasePB) :
    DatabaseEditor × List (Nat × Except FlowyError DatabasePB) :=
  ({ s with is_loading_rows := false, opening_ret_txs := [] },
   s.opening_ret_txs.map (fun c => (c, result)))

/-- Per-view configuration held by a `DatabaseViewEditor`: whether filters
and sorts are active, and the filter/sort transforms (`v_filter_rows`,
`v_sort_rows`; their `_and_notify` variants used in non-blocking mode
compute the same list and additionally push notifications, which carry no
model state). -/
structure ViewEditorCfg where
  has_filters : Bool
  has_sorts : Bool
  v_filter_rows : List Row → List Row
  v_sort_rows : List Row → List Row

/-- External conditions observed by one run of the row-loading pipeline:
row materialization from storage (`none` = that row's load failed and is
dropped), the cancellation token observed after chunk `k`, and whether the
weak database handle still upgrades before chunk `k`. -/
structure LoadCtx where
  fetch_row : RowId → Option Row
  cancelled_after : Nat → Bool
  db_alive_at : Nat → Bool

/-- Size of a row-loading chunk (`const CHUNK_SIZE: usize = 10`). -/
def CHUNK_SIZE : Nat := 10

/-- `row_orders.chunks(CHUNK_SIZE)`: split into consecutive chunks of at
most `n` elements. -/
def chunksOf (n : Nat) : List RowOrder → List (List RowOrder)
  | [] => []
  | x :: xs => ((x :: xs).take n) :: chunksOf n (xs.drop (n - 1))
termination_by l => l.length
decreasing_by
  simp only [List.length_drop, List.length_cons]
  omega

/-- The chunk loop of `async_load_rows` (database_editor.rs:1645-1676):
before each chunk the weak database handle is upgraded (`break` keeps the
partial result on failure); each chunk contributes the rows that loaded
successfully; after each chunk a cancellation check discards everything
(`return`, so no result is ever delivered). -/
def load_rows_from (ctx : LoadCtx) (k : Nat) : List (List RowOrder) → Option (List Row)
  | [] => some []
  | c :: rest =>
    if ¬ ctx.db_alive_at k then
      some []
    else
      let new_loaded_rows := c.filterMap (fun ro => ctx.fetch_row ro.id)
      if ctx.cancelled_after k then
        none
      else
        (load_rows_from ctx (k + 1) rest).map (fun tail => new_loaded_rows ++ tail)

/-- Overwrite-or-append insertion into the loaded-row map
(`collect::<HashMap<RowId, Arc<Row>>>()`). -/
def map_insert (m : List (RowId × Row)) (k : RowId) (v : Row) : List (RowId × Row) :=
  if m.any (fun e => e.1 = k) then
    m.map (fun e => if e.1 = k then (k, v) else e)
  else
    m ++ [(k, v)]

/-- Build the id-keyed map of loaded rows. -/
def build_row_map (rows : List Row) : List (RowId × Row) :=
  rows.foldl (fun m row => map_insert m row.id row) []

/-- The no-sort fallback of `apply_filter_and_sort`
(database_editor.rs:1623-1635): walk the view's original row orders,
`remove` each id from the loaded-row map, and keep the hits in order. -/
def fallback_order : List RowOrder → List (RowId × Row) → List Row
  | [], _ => []
  | ro :: rest, m =>
    match m.find? (fun e => e.1 == ro.id) with
    | some e => e.2 :: fallback_order rest (m.filter (fun x => ¬ x.1 = ro.id))
    | none => fallback_order rest m

/-- The `apply_filter_and_sort` closure of `async_load_rows`
(database_editor.rs:1594-1637).  The `row_by_row_id` cache insertions are
elided (they feed later notifications only).  `blocking_read` selects
between the returning and the notifying filter/sort variants, which agree
on the produced list. -/
def apply_filter_and_sort (cfg : ViewEditorCfg) (_blocking_read : Bool)
    (original_row_orders : List RowOrder) (loaded_rows : List Row) : List Row :=
  let filtered := if cfg.has_filters then cfg.v_filter_rows loaded_rows else loaded_rows
  if cfg.has_sorts then
    cfg.v_sort_rows filtered
  else
    fallback_order original_row_orders (build_row_map filtered)

/-- `DatabaseEditor::async_load_rows` (database_editor.rs:1579-1694), as the
result its spawned task delivers on the `notify_finish` one-shot: `none`
when the pipeline was cancelled mid-flight (waiters never receive a
result), otherwise the filtered/sorted final row list.  The fire-and-forget
`v_calculate_rows` refresh is elided. -/
def async_load_rows (ctx : LoadCtx) (cfg : ViewEditorCfg) (blocking_read : Bool)
    (row_orders : List RowOrder) (original_row_orders : List RowOrder) : Option (List Row) :=
  (load_rows_from ctx 0 (chunksOf CHUNK_SIZE row_orders)).map
    (apply_filter_and_sort cfg blocking_read original_row_orders)

/-- Threshold below which `open_database_view` blocks on the pipeline. -/
def BLOCKING_ROW_COUNT : Nat := 50

/-- The leader body of `DatabaseEditor::open_database_view`
(database_editor.rs:1492-1559): read the layout, row orders and fields,
decide `blocking_read = notify_finish.is_some() || order_rows.len() < 50`,
start the pipeline, and in the blocking case replace the unfiltered
storage-order rows with the pipeline result when (and only when) the
one-shot delivers one.  Single-flight queueing, token replacement and the
60-second await are modelled by `open_enter`, `open_complete` and
`await_open_result`. -/
def open_database_view (ctx : LoadCtx) (cfg : ViewEditorCfg) (s : DatabaseEditor)
    (view_id : String) (notify_finish : Bool) : Except FlowyError DatabasePB :=
  match s.database.get_view view_id with
  | none =>
    .error (FlowyError.record_not_found.with_context
      ("Can't find the database view:" ++ view_id))
  | some view =>
    let view_layout := view.layout
    let row_orders := view.row_orders
    let database_id := s.database.database_id
    let fields := s.database.fields.map Field.id
    let order_rows := row_orders.map RowMetaPB.fromRowOrder
    let blocking_read := notify_finish || decide (order_rows.length < BLOCKING_ROW_COUNT)
    let pipeline := async_load_rows ctx cfg blocking_read row_orders row_orders
    let final_rows :=
      if blocking_read then
        match pipeline with
        | some rows => rows.map RowMetaPB.fromRow
        | none => order_rows
      else
        order_rows
    .ok { id := database_id, fields := fields, rows := final_rows, layout_type := view_layout }

/-- Timeout of the await at the tail of `open_database_view`. -/
def OPEN_VIEW_TIMEOUT_SECS : Nat := 60

/-- Outcome of awaiting the single-flight one-shot receiver. -/
inductive RecvResult
  | received (r : Except FlowyError DatabasePB)
  | closed

/-- The tail of `open_database_view` (database_editor.rs:1572-1576):
`tokio::time::timeout(Duration::from_secs(60), rx)`.  `none` models the
60-second timeout elapsing with no result; a closed channel is mapped
through `internal_error`. -/
def await_open_result (result_within_timeout : Option RecvResult) :
    Except FlowyError DatabasePB :=
  match result_within_timeout with
  | some (RecvResult.received r) => r
  | some RecvResult.closed => .error (FlowyError.internal.with_context "channel closed")
  | none => .error (FlowyError.internal.with_context "Timeout while opening database view")

/-- `DatabaseEditor::get_row` (database_editor.rs:781-788): gated on the
view containing the row. -/
def DatabaseEditor.get_row (s : DatabaseEditor) (view_id : String) (row_id : RowId) :
    Option Row :=
  if s.database.contains_row view_id row_id then
    some (s.database.get_row row_id)
  else
    none

/-- `DatabaseEditor::get_row_meta` (database_editor.rs:836-857): gated on
the view containing the row, then requiring both the row meta and the row
document id. -/
def DatabaseEditor.get_row_meta (s : DatabaseEditor) (view_id : String) (row_id : RowId) :
    Option RowMetaPB :=
  if s.database.contains_row view_id row_id then
    match s.database.get_row_meta row_id, s.database.get_row_document_id row_id with
    | some row_meta, some row_document_id =>
      some { id := row_id, document_id := some row_document_id, icon := row_meta.icon_url,
             is_document_empty := some row_meta.is_document_empty,
             attachment_count := some row_meta.attachment_count,
             cover := row_meta.cover }
    | _, _ => none
  else
    none

/-- `n`-fold iteration of `init_database_row` on one row. -/
def init_iter (env : Env) (s : DatabaseEditor) (row_id : RowId) :
    Nat → Except FlowyError DatabaseEditor
  | 0 => .ok s
  | n + 1 =>
    match init_iter env s row_id n with
    | .ok s1 => s1.init_database_row env row_id
    | .error e => .error e

/-- Number of cloud-sync capabilities registered on the live row object the
id resolves to. -/
def cloud_plugin_count (s : DatabaseEditor) (row_id : RowId) : Nat :=
  ((lookup_handle s.handles row_id).getD []).count CollabPluginType.CloudStorage

/-- A concrete external environment in which every collaborator call
succeeds. -/
def sampleEnv : Env where
  now := 100
  uuidOk := fun _ => true
  collabObjOk := fun _ => true
  finalizeOk := fun _ => true
  apply_cell_changeset := fun cs _ _ => .ok { data := cs }
  transform_type_option := fun _ _ _ _ _ new => new
  default_type_option_data_from_type := fun _ => []

/-- Sample rows, fields and views used by the concrete witnesses. -/
def rowA : Row :=
  { id := "ra", cells := [("f1", { data := "x" })], created_at := 1, modified_at := 2 }

def rowB : Row :=
  { id := "rb", cells := [], created_at := 3, modified_at := 4 }

def primaryField : Field :=
  { id := "f1", name := "Name", field_type := FieldType.RichText, is_primary := true,
    type_options := [] }

def createdField : Field :=
  { id := "f2", name := "Created", field_type := FieldType.CreatedTime, is_primary := true,
    type_options := [] }

def sampleView : DatabaseView :=
  { id := "v1", layout := DatabaseLayout.Grid, row_orders := [{ id := "ra" }, { id := "rb" }] }

def emptyView : DatabaseView :=
  { id := "v2", layout := DatabaseLayout.Board, row_orders := [] }

def sampleDb : Database :=
  { database_id := "db1", fields := [primaryField, createdField], rows := [rowA, rowB],
    metas := [("ra", { icon_url := none, is_document_empty := true, attachment_count := 0,
                       cover := none })],
    document_ids := [("ra", "doc-ra")], views := [sampleView, emptyView] }

def sampleEditor : DatabaseEditor :=
  { database := sampleDb, handles := [], finalized_rows := [], is_loading_rows := false,
    opening_ret_txs := [], database_cancellation := none,
    un_finalized_rows_cancellation := none, pipelines_started := 0, timer_pending := false }

/-- Sample loading context: row `rb` fails to load, everything else
succeeds, nothing is cancelled. -/
def sampleCtx : LoadCtx where
  fetch_row := fun rid => if rid = "ra" then some rowA else none
  cancelled_after := fun _ => false
  db_alive_at := fun _ => true

/-- Sample view configuration: no filters, no sorts. -/
def sampleCfg : ViewEditorCfg where
  has_filters := false
  has_sorts := false
  v_filter_rows := fun rows => rows
  v_sort_rows := fun rows => rows

/-! ## Helper lemmas -/

theorem no_cloud_after_remove (ps : List CollabPluginType) :
    has_cloud_plugin (remove_plugins_for_types ps [CollabPluginType.CloudStorage]) = false := by
  induction ps with
  | nil => rfl
  | cons p rest ih =>
    cases p
    · simp [remove_plugins_for_types, has_cloud_plugin] at ih ⊢
    · simp [remove_plugins_for_types, has_cloud_plugin] at ih ⊢

theorem lookup_set_handle_same (handles : List (RowId × List CollabPluginType)) (rid : RowId)
    (ps : List CollabPluginType) :
    lookup_handle (set_handle handles rid ps) rid =
      (lookup_handle handles rid).map (fun _ => ps) := by
  induction handles with
  | nil => rfl
  | cons e rest ih =>
    by_cases h : e.1 = rid
    · simp [set_handle, lookup_handle, h]
    · simp only [set_handle, List.map_cons, if_neg h, lookup_handle]
      simpa [set_handle, h] using ih

theorem lookup_set_handle_ne (handles : List (RowId × List CollabPluginType)) (rid rid' : RowId)
    (ps : List CollabPluginType) (hne : rid' ≠ rid) :
    lookup_handle (set_handle handles rid ps) rid' = lookup_handle handles rid' := by
  induction handles with
  | nil => rfl
  | cons e rest ih =>
    by_cases h : e.1 = rid
    · have h1 : ¬ rid = rid' := fun hh => hne hh.symm
      have h2 : ¬ e.1 = rid' := by rw [h]; exact h1
      simp only [set_handle, List.map_cons, if_pos h, lookup_handle]
      rw [if_neg h1, if_neg h2]
      simpa [set_handle] using ih
    · by_cases h' : e.1 = rid'
      · simp only [set_handle, List.map_cons, if_neg h, lookup_handle]
        rw [if_pos h', if_pos h']
      · simp only [set_handle, List.map_cons, if_neg h, lookup_handle]
        rw [if_neg h', if_neg h']
        simpa [set_handle] using ih

/-! ## Claim C8 -/

/-- Claim C8: for every eviction of a finalized-row cache entry, a live row
carrying the cloud-sync capability has it deactivated exactly once before
the entry is dropped (a second application changes nothing); a dead weak
handle or a row without the capability makes the eviction a silent no-op;
and the registered eviction listener is exactly `remove_row_sync_plugin`. -/
theorem eviction_deactivates_sync_once (rid : String) (row : WeakDatabaseRow) :
    (row = none → remove_row_sync_plugin rid row = none) ∧
    (∀ ps, row = some ps → has_cloud_plugin ps = false →
      remove_row_sync_plugin rid row = some ps) ∧
    (∀ ps, row = some ps → has_cloud_plugin ps = true →
      remove_row_sync_plugin rid row =
          some (remove_plugins_for_types ps [CollabPluginType.CloudStorage]) ∧
        has_cloud_plugin (remove_plugins_for_types ps [CollabPluginType.CloudStorage]) = false ∧
        remove_row_sync_plugin rid (remove_row_sync_plugin rid row) =
          remove_row_sync_plugin rid row) ∧
    database_row_evict_listener rid row = remove_row_sync_plugin rid row := by
  refine ⟨fun h => by simp [remove_row_sync_plugin, h], fun ps hps hc => ?_, fun ps hps hc => ?_,
    rfl⟩
  · simp [remove_row_sync_plugin, hps, hc]
  · subst hps
    have hnc := no_cloud_after_remove ps
    refine ⟨by simp [remove_row_sync_plugin, hc], hnc, ?_⟩
    simp [remove_row_sync_plugin, hc, hnc]

/-- Witness for C8 at a live row carrying the cloud plugin. -/
theorem eviction_deactivates_sync_once_witness :
    remove_row_sync_plugin "ra" (some [CollabPluginType.CloudStorage, CollabPluginType.Other]) =
        some [CollabPluginType.Other] ∧
      remove_row_sync_plugin "ra" (some [CollabPluginType.Other]) =
        some [CollabPluginType.Other] ∧
      remove_row_sync_plugin "ra" none = none := by
  have h := eviction_deactivates_sync_once "ra"
    (some [CollabPluginType.CloudStorage, CollabPluginType.Other])
  have h1 := (h.2.2.1 [CollabPluginType.CloudStorage, CollabPluginType.Other] rfl (by decide)).1
  have h2 := (eviction_deactivates_sync_once "ra" (some [CollabPluginType.Other])).2.1
    [CollabPluginType.Other] rfl (by decide)
  have h3 := (eviction_deactivates_sync_once "ra" none).1 rfl
  exact ⟨by simpa using h1, h2, h3⟩

/-! ## Claim C10 -/

/-- Claim C10: `get_row` and `get_row_meta` answer `none` whenever the named
view does not contain the row, and answer `some` only when it does. -/
theorem get_row_and_meta_view_scoped (s : DatabaseEditor) (view_id : String) (row_id : RowId) :
    (s.database.contains_row view_id row_id = false →
      s.get_row view_id row_id = none ∧ s.get_row_meta view_id row_id = none) ∧
    (∀ r, s.get_row view_id row_id = some r →
      s.database.contains_row view_id row_id = true) ∧
    (∀ m, s.get_row_meta view_id row_id = some m →
      s.database.contains_row view_id row_id = true) := by
  refine ⟨fun h => ⟨?_, ?_⟩, fun r hr => ?_, fun m hm => ?_⟩
  · simp [DatabaseEditor.get_row, h]
  · simp [DatabaseEditor.get_row_meta, h]
  · by_cases hc : s.database.contains_row view_id row_id = true
    · exact hc
    · simp [DatabaseEditor.get_row, hc] at hr
  · by_cases hc : s.database.contains_row view_id row_id = true
    · exact hc
    · simp [DatabaseEditor.get_row_meta, hc] at hm

/-- Witness for C10: row `ra` exists in storage and in view `v1`, but view
`v2` does not contain it, so both lookups through `v2` answer `none`. -/
theorem get_row_and_meta_view_scoped_witness :
    sampleEditor.database.has_row "ra" = true ∧
      sampleEditor.database.contains_row "v1" "ra" = true ∧
      sampleEditor.get_row "v2" "ra" = none ∧
      sampleEditor.get_row_meta "v2" "ra" = none := by
  have h := (get_row_and_meta_view_scoped sampleEditor "v2" "ra").1 (by decide)
  exact ⟨by decide, by decide, h.1, h.2⟩

/-! ## Claim C3 -/

/-- Counterexample to C3: when the 60-second await elapses with no result,
the call fails with an `Internal`-kind error (built by `FlowyError::internal`
with a timeout context message), not with the `Timeout` error kind. -/
theorem open_view_timeout_not_timeout_kind :
    await_open_result none =
        .error { code := ErrorCode.Internal, msg := "Timeout while opening database view" } ∧
      ErrorCode.Internal ≠ ErrorCode.Timeout := by
  exact ⟨rfl, by decide⟩

/-- Claim C3 (amended): if no result is produced within the 60-second
window, the call fails, and the error is the `Internal` kind carrying the
context message "Timeout while opening database view". -/
theorem open_view_timeout_error :
    OPEN_VIEW_TIMEOUT_SECS = 60 ∧
      await_open_result none =
        .error (FlowyError.internal.with_context "Timeout while opening database view") ∧
      (FlowyError.internal.with_context "Timeout while opening database view").code =
        ErrorCode.Internal := by
  exact ⟨rfl, rfl, rfl⟩

/-! ## Claim C4 -/

/-- The sample editor, with row `ra` already finalized so that clearing its
cell needs no fresh finalization. -/
def finalizedSampleEditor : DatabaseEditor :=
  { sampleEditor with handles := [("ra", [CollabPluginType.CloudStorage])],
                      finalized_rows := ["ra"] }

/-- Counterexample to C4: `f1` is the primary field (of type `RichText`),
row `ra` holds a cell for it, yet `clear_field` succeeds and removes that
cell — there is no primary-field check on the clear path. -/
theorem clear_field_primary_succeeds :
    ((finalizedSampleEditor.database.get_field "f1").map Field.is_primary) = some true ∧
      finalizedSampleEditor.database.get_cell "f1" "ra" = some { data := "x" } ∧
      ((finalizedSampleEditor.clear_field sampleEnv "v1" "f1").toOption.map
        (fun s => s.database.get_cell "f1" "ra")) = some none := by
  exact ⟨rfl, rfl, rfl⟩

/-- Claim C4 (amended): `delete_field` and `switch_to_field_type` on a
primary field fail with the `Internal` policy error (the state is
unchanged, as no success value is produced); `clear_field` has no
primary-field check — it fails (with the `Internal` error) exactly when the
field's type is `CreatedTime` or `LastEditedTime`, and otherwise proceeds
to clear the field's cells whether or not the field is primary. -/
theorem primary_field_protections (env : Env) (s : DatabaseEditor)
    (view_id field_id : String) (new_ty : FieldType) (name : Option String) (f : Field)
    (hf : s.database.get_field field_id = some f) (hp : f.is_primary = true) :
    s.delete_field field_id =
        .error (FlowyError.new ErrorCode.Internal "Can not delete primary field") ∧
      DatabaseEditor.switch_to_field_type env s view_id field_id new_ty name =
        .error (FlowyError.new ErrorCode.Internal "Can not update primary field's field type") ∧
      ((f.field_type = FieldType.LastEditedTime ∨ f.field_type = FieldType.CreatedTime) →
        s.clear_field env view_id field_id =
          .error (FlowyError.new ErrorCode.Internal
            "Can not clear the field type of Last Edited Time or Created Time.")) ∧
      (¬ (f.field_type = FieldType.LastEditedTime ∨ f.field_type = FieldType.CreatedTime) →
        s.clear_field env view_id field_id =
          s.clear_cells_loop env view_id field_id (s.get_cells_for_field view_id field_id)) := by
  refine ⟨?_, ?_, fun ht => ?_, fun ht => ?_⟩
  · simp [DatabaseEditor.delete_field, hf, hp]
  · simp [DatabaseEditor.switch_to_field_type, hf, hp]
  · simp [DatabaseEditor.clear_field, hf, ht]
  · simp [DatabaseEditor.clear_field, hf]
    intro h
    exact absurd h ht

/-- Witness for C4 (amended), on the primary `RichText` field `f1` and the
primary `CreatedTime` field `f2` of the sample database. -/
theorem primary_field_protections_witness :
    sampleEditor.delete_field "f1" =
        .error (FlowyError.new ErrorCode.Internal "Can not delete primary field") ∧
      DatabaseEditor.switch_to_field_type sampleEnv sampleEditor "v1" "f1" FieldType.Number
          none =
        .error (FlowyError.new ErrorCode.Internal "Can not update primary field's field type") ∧
      sampleEditor.clear_field sampleEnv "v1" "f2" =
        .error (FlowyError.new ErrorCode.Internal
          "Can not clear the field type of Last Edited Time or Created Time.") := by
  have h1 := primary_field_protections sampleEnv sampleEditor "v1" "f1" FieldType.Number none
    primaryField (by decide) (by decide)
  have h2 := primary_field_protections sampleEnv sampleEditor "v1" "f2" FieldType.Number none
    createdField (by decide) (by decide)
  exact ⟨h1.1, h1.2.1, h2.2.2.1 (Or.inr rfl)⟩

/-! ## Claims C5 and C6: finalization before writes, idempotence -/

theorem get_or_init_props (s : DatabaseEditor) (rid : RowId) (s1 : DatabaseEditor)
    (h : s.get_or_init_database_row rid = some s1) :
    s1.database = s.database ∧ (lookup_handle s1.handles rid).isSome = true ∧
      s1.finalized_rows = s.finalized_rows ∧ s.database.has_row rid = true ∧
      cloud_plugin_count s1 rid = cloud_plugin_count s rid := by
  unfold DatabaseEditor.get_or_init_database_row at h
  by_cases hr : s.database.has_row rid = true
  · rw [if_pos hr] at h
    cases hl : lookup_handle s.handles rid with
    | some ps =>
      rw [hl] at h
      injection h with h'
      subst h'
      exact ⟨rfl, by simp [hl], rfl, hr, rfl⟩
    | none =>
      rw [hl] at h
      injection h with h'
      subst h'
      refine ⟨rfl, by simp [lookup_handle], rfl, hr, ?_⟩
      simp [cloud_plugin_count, lookup_handle, hl]
  · rw [if_neg hr] at h
    cases h

theorem get_or_init_self (s : DatabaseEditor) (rid : RowId)
    (hr : s.database.has_row rid = true) (hl : (lookup_handle s.handles rid).isSome = true) :
    s.get_or_init_database_row rid = some s := by
  unfold DatabaseEditor.get_or_init_database_row
  rw [if_pos hr]
  cases hx : lookup_handle s.handles rid with
  | some _ => rfl
  | none => rw [hx] at hl; cases hl

theorem init_database_row_ok_props (env : Env) (s : DatabaseEditor) (rid : RowId)
    (s' : DatabaseEditor) (h : s.init_database_row env rid = .ok s') :
    rid ∈ s'.finalized_rows ∧ s'.database = s.database ∧
      (lookup_handle s'.handles rid).isSome = true ∧ s'.database.has_row rid = true := by
  unfold DatabaseEditor.init_database_row at h
  cases hg : s.get_or_init_database_row rid with
  | none => rw [hg] at h; cases h
  | some s1 =>
    rw [hg] at h
    dsimp only at h
    obtain ⟨hdb1, hl1, _, hr1, _⟩ := get_or_init_props s rid s1 hg
    by_cases hmem : rid ∈ s1.finalized_rows
    · rw [if_pos hmem] at h
      injection h with h'
      subst h'
      exact ⟨hmem, hdb1, hl1, by rw [hdb1]; exact hr1⟩
    · rw [if_neg hmem] at h
      by_cases hu : ¬ env.uuidOk rid = true
      · rw [if_pos hu] at h; cases h
      · rw [if_neg hu] at h
        by_cases hc : ¬ env.collabObjOk rid = true
        · rw [if_pos hc] at h; cases h
        · rw [if_neg hc] at h
          injection h with h'
          subst h'
          by_cases hfin : env.finalizeOk rid = true
          · refine ⟨by simp, by simp [hfin, hdb1], ?_, by simp [hfin, hdb1, hr1]⟩
            simp only [hfin, if_pos]
            simp [lookup_set_handle_same]
            cases hx : lookup_handle s1.handles rid with
            | some ps => simp
            | none => rw [hx] at hl1; cases hl1
          · exact ⟨by simp, by simp [hfin, hdb1], by simp [hfin, hl1],
              by simp [hfin, hdb1, hr1]⟩

theorem init_database_row_idem (env : Env) (s s' : DatabaseEditor) (rid : RowId)
    (h : s.init_database_row env rid = .ok s') :
    s'.init_database_row env rid = .ok s' := by
  obtain ⟨hmem, _, hl, hr⟩ := init_database_row_ok_props env s rid s' h
  unfold DatabaseEditor.init_database_row
  rw [get_or_init_self s' rid hr hl]
  dsimp only
  rw [if_pos hmem]

theorem init_database_row_single_sync (env : Env) (s s' : DatabaseEditor) (rid : RowId)
    (hnf : rid ∉ s.finalized_rows) (hc0 : cloud_plugin_count s rid = 0)
    (hfin : env.finalizeOk rid = true)
    (h : s.init_database_row env rid = .ok s') :
    cloud_plugin_count s' rid = 1 := by
  unfold DatabaseEditor.init_database_row at h
  cases hg : s.get_or_init_database_row rid with
  | none => rw [hg] at h; cases h
  | some s1 =>
    rw [hg] at h
    dsimp only at h
    obtain ⟨_, hl1, hf1, _, hcnt⟩ := get_or_init_props s rid s1 hg
    have hmem : rid ∉ s1.finalized_rows := by rw [hf1]; exact hnf
    rw [if_neg hmem] at h
    by_cases hu : ¬ env.uuidOk rid = true
    · rw [if_pos hu] at h; cases h
    · rw [if_neg hu] at h
      by_cases hc : ¬ env.collabObjOk rid = true
      · rw [if_pos hc] at h; cases h
      · rw [if_neg hc] at h
        injection h with h'
        subst h'
        simp only [cloud_plugin_count, hfin, if_pos]
        simp [lookup_set_handle_same]
        cases hx : lookup_handle s1.handles rid with
        | none => rw [hx] at hl1; cases hl1
        | some ps =>
          have : ps.count CollabPluginType.CloudStorage = 0 := by
            have := hcnt.trans hc0
            simpa [cloud_plugin_count, hx] using this
          simp [List.count_append, this]

/-- Claim C6: `init_database_row` is idempotent — a second call on an
already-finalized row returns the state unchanged (no new finalization, no
new cache insertion), so iterating it any number of times is the identity,
and starting from an unfinalized row with no registered capability a
successful call leaves exactly one cloud-sync capability registered. -/
theorem init_database_row_idempotent :
    (∀ env (s s' : DatabaseEditor) rid, s.init_database_row env rid = .ok s' →
      s'.init_database_row env rid = .ok s' ∧ ∀ n, init_iter env s' rid n = .ok s') ∧
    (∀ env (s s' : DatabaseEditor) rid, rid ∉ s.finalized_rows →
      cloud_plugin_count s rid = 0 → env.finalizeOk rid = true →
      s.init_database_row env rid = .ok s' → cloud_plugin_count s' rid = 1) := by
  constructor
  · intro env s s' rid h
    have hidem := init_database_row_idem env s s' rid h
    refine ⟨hidem, fun n => ?_⟩
    induction n with
    | zero => rfl
    | succ n ih => simp [init_iter, ih, hidem]
  · intro env s s' rid hnf hc0 hfin h
    exact init_database_row_single_sync env s s' rid hnf hc0 hfin h

/-- Witness for C6: finalizing row `ra` of the sample editor once yields the
finalized state; further calls leave it untouched and exactly one cloud
capability is registered. -/
theorem init_database_row_idempotent_witness :
    sampleEditor.init_database_row sampleEnv "ra" = .ok finalizedSampleEditor ∧
      finalizedSampleEditor.init_database_row sampleEnv "ra" = .ok finalizedSampleEditor ∧
      init_iter sampleEnv finalizedSampleEditor "ra" 3 = .ok finalizedSampleEditor ∧
      cloud_plugin_count finalizedSampleEditor "ra" = 1 := by
  have hstart : sampleEditor.init_database_row sampleEnv "ra" = .ok finalizedSampleEditor := rfl
  have h1 := init_database_row_idempotent.1 sampleEnv sampleEditor finalizedSampleEditor "ra"
    hstart
  have h2 := init_database_row_idempotent.2 sampleEnv sampleEditor finalizedSampleEditor "ra"
    (by simp [sampleEditor]) rfl rfl hstart
  exact ⟨hstart, h1.1, h1.2 3, h2⟩

theorem finalize_row_if_needed_mem (env : Env) (s s1 : DatabaseEditor) (rid : RowId)
    (h : s.finalize_row_if_needed env rid = .ok s1) : rid ∈ s1.finalized_rows := by
  unfold DatabaseEditor.finalize_row_if_needed at h
  by_cases hm : rid ∈ s.finalized_rows
  · rw [if_pos hm] at h
    injection h with h'
    subst h'
    exact hm
  · rw [if_neg hm] at h
    exact (init_database_row_ok_props env s rid s1 h).1

/-- Claim C5: every cell-mutation entry point routes the row write through
`update_row`, and `update_row` forwards the write to the shared document
only from a state in which the target row is finalized (finalizing it
synchronously first when needed). -/
theorem cell_mutations_write_only_finalized :
    (∀ env (s s' : DatabaseEditor) rid modify,
      s.update_row env rid modify = .ok s' →
      ∃ s1, s.finalize_row_if_needed env rid = .ok s1 ∧ rid ∈ s1.finalized_rows ∧
        s' = s1.forward_row_write rid modify) ∧
    (∀ env (s : DatabaseEditor) view_id rid field_id c,
      s.update_cell env view_id rid field_id c =
        s.update_row env rid (update_cell_modify env.now field_id c)) ∧
    (∀ env (s : DatabaseEditor) view_id rid field_id,
      s.clear_cell env view_id rid field_id =
        s.update_row env rid (clear_cell_modify field_id)) ∧
    (∀ env (s s' : DatabaseEditor) view_id rid field_id cs,
      s.update_cell_with_changeset env view_id rid field_id cs = .ok s' →
      ∃ c, s.update_cell env view_id rid field_id c = .ok s') := by
  refine ⟨fun env s s' rid modify h => ?_, fun _ _ _ _ _ _ => rfl, fun _ _ _ _ _ => rfl,
    fun env s s' view_id rid field_id cs h => ?_⟩
  · unfold DatabaseEditor.update_row at h
    cases hf : s.finalize_row_if_needed env rid with
    | error e => rw [hf] at h; simp [Bind.bind, Except.bind] at h
    | ok s1 =>
      rw [hf] at h
      simp only [Bind.bind, Except.bind, Except.ok.injEq] at h
      exact ⟨s1, rfl, finalize_row_if_needed_mem env s s1 rid hf, h.symm⟩
  · unfold DatabaseEditor.update_cell_with_changeset at h
    cases hfld : s.database.get_field field_id with
    | none => rw [hfld] at h; simp [Bind.bind, Except.bind] at h
    | some f =>
      rw [hfld] at h
      simp only [Bind.bind, Except.bind] at h
      cases happ : env.apply_cell_changeset cs (s.database.get_cell field_id rid) f with
      | error e => rw [happ] at h; simp at h
      | ok c => rw [happ] at h; exact ⟨c, h⟩

/-- The state after clearing row `ra`'s `f1` cell through the finalized
sample editor. -/
def clearedRaEditor : DatabaseEditor :=
  { finalizedSampleEditor with database :=
      { sampleDb with rows := [{ rowA with cells := [] }, rowB] } }

/-- The state after writing `{ data := "new" }` into row `ra`'s `f1` cell
through the finalized sample editor at time 100. -/
def updatedRaEditor : DatabaseEditor :=
  { finalizedSampleEditor with database :=
      { sampleDb with rows :=
          [{ rowA with modified_at := 100, cells := [("f1", { data := "new" })] }, rowB] } }

/-- Witness for C5: a concrete `update_row` run on the not-yet-finalized
row `ra` goes through an intermediate state that has `ra` finalized, and a
concrete `update_cell_with_changeset` run factors through `update_cell`. -/
theorem cell_mutations_write_only_finalized_witness :
    (∃ s1, sampleEditor.finalize_row_if_needed sampleEnv "ra" = .ok s1 ∧
      "ra" ∈ s1.finalized_rows ∧
      clearedRaEditor = s1.forward_row_write "ra" (clear_cell_modify "f1")) ∧
    (∃ c, sampleEditor.update_cell sampleEnv "v1" "ra" "f1" c = .ok updatedRaEditor) := by
  constructor
  · exact cell_mutations_write_only_finalized.1 sampleEnv sampleEditor clearedRaEditor "ra"
      (clear_cell_modify "f1") rfl
  · exact cell_mutations_write_only_finalized.2.2.2 sampleEnv sampleEditor updatedRaEditor
      "v1" "ra" "f1" "new" rfl

/-! ## Claim C2 -/

theorem open_enter_loading (s : DatabaseEditor) (c : Nat) (h : s.is_loading_rows = true) :
    s.open_enter c = { s with opening_ret_txs := s.opening_ret_txs ++ [c] } := by
  simp [DatabaseEditor.open_enter, h]

theorem foldl_open_enter (callers : List Nat) :
    ∀ s : DatabaseEditor, s.is_loading_rows = true →
      callers.foldl DatabaseEditor.open_enter s =
        { s with opening_ret_txs := s.opening_ret_txs ++ callers } := by
  induction callers with
  | nil => intro s _; simp
  | cons c cs ih =>
    intro s h
    rw [List.foldl_cons, open_enter_loading s c h, ih _ (by simpa using h)]
    simp

/-- Claim C2: while a load pipeline for the database is in flight, any
number of further `open_database_view` entries start no second pipeline;
when the in-flight pipeline completes, every queued caller (earlier and
later alike) is delivered exactly the in-flight result. -/
theorem single_flight_shared_result (s : DatabaseEditor) (callers : List Nat)
    (result : Except FlowyError DatabasePB) (h : s.is_loading_rows = true) :
    (callers.foldl DatabaseEditor.open_enter s).pipelines_started = s.pipelines_started ∧
      ((callers.foldl DatabaseEditor.open_enter s).open_complete result).2 =
        (s.opening_ret_txs ++ callers).map (fun c => (c, result)) ∧
      ∀ d ∈ ((callers.foldl DatabaseEditor.open_enter s).open_complete result).2,
        d.2 = result := by
  rw [foldl_open_enter callers s h]
  refine ⟨rfl, rfl, fun d hd => ?_⟩
  simp only [DatabaseEditor.open_complete, List.mem_map] at hd
  obtain ⟨c, _, rfl⟩ := hd
  rfl

/-- An editor with a load in flight and one caller already queued. -/
def loadingSampleEditor : DatabaseEditor :=
  { sampleEditor with is_loading_rows := true, opening_ret_txs := [0] }

/-- Witness for C2: two callers entering while a load is in flight are both
answered with the leader's result and no new pipeline starts. -/
theorem single_flight_shared_result_witness :
    (([1, 2].foldl DatabaseEditor.open_enter loadingSampleEditor).pipelines_started =
        loadingSampleEditor.pipelines_started ∧
      (([1, 2].foldl DatabaseEditor.open_enter loadingSampleEditor).open_complete
        (.error FlowyError.internal)).2 =
        [(0, .error FlowyError.internal), (1, .error FlowyError.internal),
         (2, .error FlowyError.internal)] ∧
      ∀ d ∈ (([1, 2].foldl DatabaseEditor.open_enter loadingSampleEditor).open_complete
        (.error FlowyError.internal)).2, d.2 = .error FlowyError.internal) := by
  have h := single_flight_shared_result loadingSampleEditor [1, 2]
    (.error FlowyError.internal) rfl
  refine ⟨h.1, ?_, h.2.2⟩
  rw [h.2.1]
  rfl

/-! ## Claim C9 -/

theorem update_handle_clears (handles : List (RowId × List CollabPluginType)) (rid : RowId)
    (ps : List CollabPluginType)
    (h : lookup_handle (update_handle handles rid) rid = some ps) :
    has_cloud_plugin ps = false := by
  unfold update_handle at h
  cases hl : lookup_handle handles rid with
  | none => rw [hl] at h; simp [remove_row_sync_plugin, hl] at h
  | some ps0 =>
    rw [hl] at h
    by_cases hc : has_cloud_plugin ps0 = true
    · simp only [remove_row_sync_plugin, hc, if_pos] at h
      rw [lookup_set_handle_same, hl] at h
      simp at h
      subst h
      exact no_cloud_after_remove ps0
    · simp only [remove_row_sync_plugin, if_neg hc] at h
      rw [lookup_set_handle_same, hl] at h
      simp at h
      subst h
      simpa using hc

theorem update_handle_preserves_clean (handles : List (RowId × List CollabPluginType))
    (rid rid' : RowId)
    (h : ∀ ps, lookup_handle handles rid' = some ps → has_cloud_plugin ps = false) :
    ∀ ps, lookup_handle (update_handle handles rid) rid' = some ps →
      has_cloud_plugin ps = false := by
  intro ps hps
  by_cases he : rid' = rid
  · subst he
    exact update_handle_clears handles rid' ps hps
  · unfold update_handle at hps
    cases hl : lookup_handle handles rid with
    | none => rw [hl] at hps; exact h ps (by simpa [remove_row_sync_plugin, hl] using hps)
    | some ps0 =>
      rw [hl] at hps
      cases hrm : remove_row_sync_plugin rid (some ps0) with
      | none => simp [remove_row_sync_plugin] at hrm; split at hrm <;> cases hrm
      | some ps1 =>
        rw [hrm] at hps
        rw [lookup_set_handle_ne handles rid rid' ps1 he] at hps
        exact h ps hps

theorem foldl_update_preserves_clean (keys : List RowId) :
    ∀ (handles : List (RowId × List CollabPluginType)) (rid : RowId),
      (∀ ps, lookup_handle handles rid = some ps → has_cloud_plugin ps = false) →
      ∀ ps, lookup_handle (keys.foldl update_handle handles) rid = some ps →
        has_cloud_plugin ps = false := by
  induction keys with
  | nil => intro handles rid h; exact h
  | cons k ks ih =>
    intro handles rid h
    exact ih (update_handle handles k) rid (update_handle_preserves_clean handles k rid h)

theorem foldl_update_clears_mem (keys : List RowId) :
    ∀ (handles : List (RowId × List CollabPluginType)) (rid : RowId), rid ∈ keys →
      ∀ ps, lookup_handle (keys.foldl update_handle handles) rid = some ps →
        has_cloud_plugin ps = false := by
  induction keys with
  | nil => intro _ _ h; cases h
  | cons k ks ih =>
    intro handles rid hmem
    rcases List.mem_cons.mp hmem with he | hin
    · subst he
      exact foldl_update_preserves_clean ks (update_handle handles rid) rid
        (update_handle_clears handles rid)
    · exact ih (update_handle handles k) rid hin

/-- Claim C9: `close_database` arms a cancelable 30-second grace timer and
triggers the in-flight document cancellation token if any; an
`open_database_view` inside the window cancels the grace token, so the
timer firing evicts nothing; without that open the timer firing evicts
every finalized-row cache entry and deactivates each entry's cloud-sync
capability. -/
theorem close_database_grace (s : DatabaseEditor) :
    CLOSE_GRACE_SECS = 30 ∧
      (s.close_database.cancel_un_finalized_token.grace_timer_fire).finalized_rows =
        s.finalized_rows ∧
      (s.close_database.cancel_un_finalized_token.grace_timer_fire).handles = s.handles ∧
      (s.close_database.grace_timer_fire).finalized_rows = [] ∧
      (∀ rid, rid ∈ s.finalized_rows → ∀ ps,
        lookup_handle (s.close_database.grace_timer_fire).handles rid = some ps →
        has_cloud_plugin ps = false) ∧
      (∀ t, s.database_cancellation = some t →
        s.close_database.database_cancellation = some { cancelled := true }) := by
  refine ⟨rfl, ?_, ?_, ?_, fun rid hmem ps hps => ?_, fun t ht => ?_⟩
  · simp [DatabaseEditor.close_database, DatabaseEditor.cancel_un_finalized_token,
      DatabaseEditor.grace_timer_fire]
  · simp [DatabaseEditor.close_database, DatabaseEditor.cancel_un_finalized_token,
      DatabaseEditor.grace_timer_fire]
  · simp [DatabaseEditor.close_database, DatabaseEditor.grace_timer_fire,
      DatabaseEditor.un_finalize_sweep]
  · simp only [DatabaseEditor.close_database, DatabaseEditor.grace_timer_fire,
      DatabaseEditor.un_finalize_sweep] at hps
    simp at hps
    exact foldl_update_preserves_clean s.finalized_rows
      (s.finalized_rows.foldl update_handle s.handles) rid
      (foldl_update_clears_mem s.finalized_rows s.handles rid hmem) ps hps
  · simp [DatabaseEditor.close_database, ht]

/-- The finalized sample editor with an in-flight document token, about to
be closed. -/
def closingSampleEditor : DatabaseEditor :=
  { finalizedSampleEditor with database_cancellation := some { cancelled := false } }

/-- Witness for C9, on an editor whose cache holds the finalized row `ra`
with an active cloud plugin and whose document token is in flight. -/
theorem close_database_grace_witness :
    ((closingSampleEditor.close_database.cancel_un_finalized_token.grace_timer_fire).finalized_rows
        = ["ra"] ∧
      (closingSampleEditor.close_database.grace_timer_fire).finalized_rows = [] ∧
      (∀ ps,
        lookup_handle (closingSampleEditor.close_database.grace_timer_fire).handles "ra" =
          some ps → has_cloud_plugin ps = false) ∧
      closingSampleEditor.close_database.database_cancellation =
        some { cancelled := true }) := by
  have h := close_database_grace closingSampleEditor
  refine ⟨h.2.1, h.2.2.2.1, fun ps hps => ?_, h.2.2.2.2.2 { cancelled := false } rfl⟩
  exact h.2.2.2.2.1 "ra" (by simp [closingSampleEditor, finalizedSampleEditor]) ps hps

/-! ## Claim C1 -/

theorem chunksOf_join (n : Nat) (hn : 0 < n) :
    ∀ l : List RowOrder, (chunksOf n l).flatten = l := by
  intro l
  induction l using chunksOf.induct n with
  | case1 => simp [chunksOf]
  | case2 x xs ih =>
    rw [chunksOf]
    simp only [List.flatten_cons]
    rw [ih]
    obtain ⟨m, rfl⟩ : ∃ m, n = m + 1 := ⟨n - 1, by omega⟩
    simp [List.take_cons]

theorem load_rows_from_complete (ctx : LoadCtx) (halive : ∀ k, ctx.db_alive_at k = true)
    (hcanc : ∀ k, ctx.cancelled_after k = false) :
    ∀ (chunks : List (List RowOrder)) (k : Nat),
      load_rows_from ctx k chunks =
        some (chunks.flatten.filterMap (fun ro => ctx.fetch_row ro.id)) := by
  intro chunks
  induction chunks with
  | nil => intro k; simp [load_rows_from]
  | cons c rest ih =>
    intro k
    rw [load_rows_from]
    rw [if_neg (by simp [halive k])]
    rw [if_neg (by simp [hcanc k])]
    rw [ih (k + 1)]
    simp [List.filterMap_append]

theorem async_load_rows_complete (ctx : LoadCtx) (cfg : ViewEditorCfg) (blocking_read : Bool)
    (ros : List RowOrder) (halive : ∀ k, ctx.db_alive_at k = true)
    (hcanc : ∀ k, ctx.cancelled_after k = false) :
    async_load_rows ctx cfg blocking_read ros ros =
      some (apply_filter_and_sort cfg blocking_read ros
        (ros.filterMap (fun ro => ctx.fetch_row ro.id))) := by
  unfold async_load_rows
  rw [load_rows_from_complete ctx halive hcanc (chunksOf CHUNK_SIZE ros) 0]
  rw [chunksOf_join CHUNK_SIZE (by decide) ros]
  rfl

/-- Claim C1: the leader path of `open_database_view` blocks on the pipeline
and returns the final filtered/sorted row list exactly when a completion
signal was supplied or the view's unfiltered row count is strictly below
50; otherwise it returns the unfiltered, storage-order row list. -/
theorem open_database_view_threshold (ctx : LoadCtx) (cfg : ViewEditorCfg)
    (s : DatabaseEditor) (view_id : String) (v : DatabaseView) (notify_finish : Bool)
    (hview : s.database.get_view view_id = some v)
    (halive : ∀ k, ctx.db_alive_at k = true) (hcanc : ∀ k, ctx.cancelled_after k = false) :
    open_database_view ctx cfg s view_id notify_finish =
      .ok { id := s.database.database_id, fields := s.database.fields.map Field.id,
            rows :=
              if notify_finish = true ∨ v.row_orders.length < BLOCKING_ROW_COUNT then
                (apply_filter_and_sort cfg true v.row_orders
                  (v.row_orders.filterMap (fun ro => ctx.fetch_row ro.id))).map
                  RowMetaPB.fromRow
              else
                v.row_orders.map RowMetaPB.fromRowOrder,
            layout_type := v.layout } := by
  unfold open_database_view
  rw [hview]
  dsimp only
  by_cases hb : notify_finish = true ∨ v.row_orders.length < BLOCKING_ROW_COUNT
  · have hbb : (notify_finish ||
        decide ((v.row_orders.map RowMetaPB.fromRowOrder).length < BLOCKING_ROW_COUNT)) =
          true := by
      rcases hb with h | h
      · simp [h]
      · simp [List.length_map, h]
    rw [hbb]
    rw [async_load_rows_complete ctx cfg true v.row_orders halive hcanc]
    rw [if_pos hb]
    rfl
  · have hbb : (notify_finish ||
        decide ((v.row_orders.map RowMetaPB.fromRowOrder).length < BLOCKING_ROW_COUNT)) =
          false := by
      push_neg at hb
      simp [List.length_map, hb.1, hb.2]
    rw [hbb]
    rw [if_neg hb]
    rfl

/-- Witness for C1: view `v1` has 2 rows (below 50), so a plain open with
no completion signal still blocks and answers the filtered/sorted list —
here row `ra` (row `rb` failed to load). -/
theorem open_database_view_threshold_witness :
    open_database_view sampleCtx sampleCfg sampleEditor "v1" false =
      .ok { id := "db1", fields := ["f1", "f2"], rows := [RowMetaPB.fromRow rowA],
            layout_type := DatabaseLayout.Grid } := by
  have h := open_database_view_threshold sampleCtx sampleCfg sampleEditor "v1" sampleView
    false rfl (fun _ => rfl) (fun _ => rfl)
  rw [h]
  rfl

/-! ## Claim C7 -/

theorem filterMap_ids_sublist (f : RowOrder → Option Row)
    (hid : ∀ ro r, f ro = some r → r.id = ro.id) :
    ∀ ros : List RowOrder, ((ros.filterMap f).map Row.id).Sublist (ros.map RowOrder.id) := by
  intro ros
  induction ros with
  | nil => simp
  | cons ro rest ih =>
    cases hf : f ro with
    | none =>
      simp only [List.filterMap_cons, hf, List.map_cons]
      exact ih.trans (List.sublist_cons_self _ _)
    | some r =>
      simp only [List.filterMap_cons, hf, List.map_cons, hid ro r hf]
      exact ih.cons₂ ro.id

theorem build_row_map_go (rows : List Row) :
    ∀ m : List (RowId × Row),
      (∀ r ∈ rows, ∀ e ∈ m, ¬ e.1 = r.id) → ((rows.map Row.id).Nodup) →
      rows.foldl (fun m row => map_insert m row.id row) m =
        m ++ rows.map (fun r => (r.id, r)) := by
  induction rows with
  | nil => intro m _ _; simp
  | cons r rest ih =>
    intro m hdisj hnd
    rw [List.foldl_cons]
    have hnone : ¬ (m.any (fun e => e.1 = r.id)) = true := by
      intro hany
      rw [List.any_eq_true] at hany
      obtain ⟨e, he, heq⟩ := hany
      exact hdisj r (List.mem_cons_self r rest) e he (of_decide_eq_true heq)
    have hins : map_insert m r.id r = m ++ [(r.id, r)] := by
      unfold map_insert
      rw [if_neg hnone]
    rw [hins, ih (m ++ [(r.id, r)]) ?_ ?_]
    · simp
    · intro r' hr' e he
      rcases List.mem_append.mp he with hm | hsing
      · exact hdisj r' (List.mem_cons_of_mem _ hr') e hm
      · have he' : e = (r.id, r) := by simpa using hsing
        subst he'
        intro hcontra
        dsimp only at hcontra
        have hin : r.id ∈ rest.map Row.id := by
          rw [hcontra]
          exact List.mem_map_of_mem Row.id hr'
        exact (List.nodup_cons.mp (by simpa using hnd)).1 hin
    · exact (List.nodup_cons.mp (by simpa using hnd)).2

theorem build_row_map_eq (rows : List Row) (h : (rows.map Row.id).Nodup) :
    build_row_map rows = rows.map (fun r => (r.id, r)) := by
  unfold build_row_map
  rw [build_row_map_go rows [] (by simp) h]
  simp

theorem fallback_order_restores (f : RowOrder → Option Row)
    (hid : ∀ ro r, f ro = some r → r.id = ro.id) :
    ∀ ros : List RowOrder, (ros.map RowOrder.id).Nodup →
      fallback_order ros ((ros.filterMap f).map (fun r => (r.id, r))) = ros.filterMap f := by
  intro ros
  induction ros with
  | nil => intro _; rfl
  | cons ro rest ih =>
    intro hnd
    have hnd' : (rest.map RowOrder.id).Nodup := (List.nodup_cons.mp (by simpa using hnd)).2
    have hnotin : ro.id ∉ rest.map RowOrder.id := (List.nodup_cons.mp (by simpa using hnd)).1
    have hkeys : ∀ e ∈ (rest.filterMap f).map (fun r => (r.id, r)), ¬ e.1 = ro.id := by
      intro e he heq
      obtain ⟨r, hr, rfl⟩ := List.mem_map.mp he
      dsimp only at heq
      have hin : r.id ∈ rest.map RowOrder.id :=
        (filterMap_ids_sublist f hid rest).subset (List.mem_map_of_mem Row.id hr)
      rw [heq] at hin
      exact hnotin hin
    cases hf : f ro with
    | none =>
      simp only [List.filterMap_cons, hf]
      rw [fallback_order]
      have hfind : ((rest.filterMap f).map (fun r => (r.id, r))).find?
          (fun e => e.1 == ro.id) = none := by
        rw [List.find?_eq_none]
        intro e he
        simpa using hkeys e he
      rw [hfind]
      exact ih hnd'
    | some r =>
      have hrid : r.id = ro.id := hid ro r hf
      simp only [List.filterMap_cons, hf, List.map_cons]
      rw [fallback_order]
      have hfind : (((r.id, r) :: (rest.filterMap f).map (fun r => (r.id, r))).find?
          (fun e => e.1 == ro.id)) = some (r.id, r) := by
        simp [List.find?_cons, hrid]
      rw [hfind]
      have hfilter : (((r.id, r) :: (rest.filterMap f).map (fun r => (r.id, r))).filter
          (fun x => ¬ x.1 = ro.id)) = (rest.filterMap f).map (fun r => (r.id, r)) := by
        rw [List.filter_cons]
        have : (decide ¬ (r.id, r).1 = ro.id) = false := by simp [hrid]
        rw [this]
        simp only [Bool.false_eq_true, if_neg (by simp : ¬ False)]
        rw [List.filter_eq_self.mpr]
        intro e he
        simpa using hkeys e he
      rw [hfilter]
      rw [ih hnd']

/-- Claim C7: when the view has neither active filters nor active sorts, an
uncancelled load delivers exactly the view's original row-order sequence
restricted to the rows that loaded successfully — failed rows are silently
absent and the surviving rows keep the original relative order. -/
theorem async_load_rows_no_config_original_order (ctx : LoadCtx) (cfg : ViewEditorCfg)
    (blocking_read : Bool) (ros : List RowOrder)
    (hfil : cfg.has_filters = false) (hsort : cfg.has_sorts = false)
    (halive : ∀ k, ctx.db_alive_at k = true) (hcanc : ∀ k, ctx.cancelled_after k = false)
    (hnodup : (ros.map RowOrder.id).Nodup)
    (hid : ∀ rid r, ctx.fetch_row rid = some r → r.id = rid) :
    async_load_rows ctx cfg blocking_read ros ros =
      some (ros.filterMap (fun ro => ctx.fetch_row ro.id)) := by
  rw [async_load_rows_complete ctx cfg blocking_read ros halive hcanc]
  congr 1
  unfold apply_filter_and_sort
  rw [hfil, hsort]
  simp only [Bool.false_eq_true, if_neg (by simp : ¬ False)]
  have hid' : ∀ (ro : RowOrder) (r : Row), ctx.fetch_row ro.id = some r → r.id = ro.id :=
    fun ro r h => hid ro.id r h
  have hnd : ((ros.filterMap (fun ro => ctx.fetch_row ro.id)).map Row.id).Nodup :=
    (filterMap_ids_sublist _ hid' ros).nodup hnodup
  rw [build_row_map_eq _ hnd]
  exact fallback_order_restores _ hid' ros hnodup

/-- Witness for C7: loading view `v1`'s rows `[ra, rb]` with `rb` failing
and no filter/sort configured yields `[rowA]`, the original order
restricted to the loaded rows. -/
theorem async_load_rows_no_config_original_order_witness :
    async_load_rows sampleCtx sampleCfg true sampleView.row_orders sampleView.row_orders =
      some [rowA] := by
  have h := async_load_rows_no_config_original_order sampleCtx sampleCfg true
    sampleView.row_orders rfl rfl (fun _ => rfl) (fun _ => rfl) (by decide)
    (fun rid r hr => by
      by_cases hx : rid = "ra"
      · subst hx
        simp [sampleCtx] at hr
        rw [← hr]
        rfl
      · simp [sampleCtx, hx] at hr)
  rw [h]
  rfl

end Flowy
